import Mathlib

/-!
A shallow embedding, in Lean 4, of the control-plane code of the VSLAM
repository (an ORB-SLAM2 derivative): `src/System.cc` and
`include/BoostArchiver.h`.  Pure computations are translated to Lean
functions; the busy-wait loops are given an explicit fuel bound and an
environment that reports worker state at discrete poll ticks; the
controller-thread side of multi-threaded procedures is modelled as the
sequence of events it emits, in program order.  Definitions whose doc
comment starts with "Modelled from the spec:" stand for collaborator code
(KeyFrame.cc, MapPoint.cc, Map.cc) that is declared and called here but
whose body is not among the given sources; they follow the design
document's wording for those collaborators.
-/

namespace VSLAM

/-- First poll tick `t` with `t0 ≤ t ≤ t0 + fuel` at which the observed
condition `p` holds: the busy-wait loops `while (!p()) usleep(...)` of
System.cc, sampled at discrete ticks, with explicit fuel standing for the
scheduler's bound on how long the condition can stay false.  Returns none
when the condition stays false for the whole fuel budget (the source loop
would still be spinning). -/
def pollFirst (p : Nat → Bool) : Nat → Nat → Option Nat
  | t0, 0 => if p t0 then some t0 else none
  | t0, fuel + 1 => if p t0 then some t0 else pollFirst p (t0 + 1) fuel

/-! ## Mode/Reset controller (C1): the mode-change block of the tracking calls -/

/-- Events emitted by the mode-change block at the top of each foreground
tracking call (System.cc, the block guarded by `mMutexMode`). -/
inductive ModeEv
  | requestStop
  | stoppedObserved
  | informOnlyTracking (onlyTracking : Bool)
  | releaseLocalMapper
deriving DecidableEq, Repr

/-- Pending mode-transition flags of `System` (set by
ActivateLocalizationMode / DeactivateLocalizationMode, consumed by the
tracking calls). -/
structure ModeFlags where
  activateLocalizationMode : Bool
  deactivateLocalizationMode : Bool
deriving DecidableEq, Repr

/-- Mode-change block of System::TrackStereo (System.cc lines 140-158):
when pending-activate is set, request the local mapper to stop, poll
`isStopped` until it reports stopped, inform the tracker it is
only-tracking (`true`), clear the flag; when pending-deactivate is set,
inform the tracker of full mapping, release the local mapper, clear that
flag.  `isStopped` reports the mapper's stopped state at each poll tick;
the result is none when the stop wait is not satisfied within fuel. -/
def modeCheckStereo (isStopped : Nat → Bool) (fuel : Nat) (f : ModeFlags) :
    Option (List ModeEv × ModeFlags) :=
  let step1 : Option (List ModeEv × ModeFlags) :=
    if f.activateLocalizationMode then
      match pollFirst isStopped 0 fuel with
      | none => none
      | some _ =>
        some ([ModeEv.requestStop, ModeEv.stoppedObserved,
               ModeEv.informOnlyTracking true],
              { f with activateLocalizationMode := false })
    else some ([], f)
  match step1 with
  | none => none
  | some (evs1, f1) =>
    if f1.deactivateLocalizationMode then
      some (evs1 ++ [ModeEv.informOnlyTracking false, ModeEv.releaseLocalMapper],
            { f1 with deactivateLocalizationMode := false })
    else some (evs1, f1)

/-- Mode-change block of System::TrackRGBD (System.cc lines 188-206):
identical to the stereo block, informing only-tracking `true` in the
activate branch. -/
def modeCheckRGBD (isStopped : Nat → Bool) (fuel : Nat) (f : ModeFlags) :
    Option (List ModeEv × ModeFlags) :=
  let step1 : Option (List ModeEv × ModeFlags) :=
    if f.activateLocalizationMode then
      match pollFirst isStopped 0 fuel with
      | none => none
      | some _ =>
        some ([ModeEv.requestStop, ModeEv.stoppedObserved,
               ModeEv.informOnlyTracking true],
              { f with activateLocalizationMode := false })
    else some ([], f)
  match step1 with
  | none => none
  | some (evs1, f1) =>
    if f1.deactivateLocalizationMode then
      some (evs1 ++ [ModeEv.informOnlyTracking false, ModeEv.releaseLocalMapper],
            { f1 with deactivateLocalizationMode := false })
    else some (evs1, f1)

/-- Mode-change block of System::TrackMonocular (System.cc lines 234-254):
same shape as the stereo block, except that the activate branch calls
`mpTracker->InformOnlyTracking(false)` (line 246) - it passes `false`,
not `true`. -/
def modeCheckMonocular (isStopped : Nat → Bool) (fuel : Nat) (f : ModeFlags) :
    Option (List ModeEv × ModeFlags) :=
  let step1 : Option (List ModeEv × ModeFlags) :=
    if f.activateLocalizationMode then
      match pollFirst isStopped 0 fuel with
      | none => none
      | some _ =>
        some ([ModeEv.requestStop, ModeEv.stoppedObserved,
               ModeEv.informOnlyTracking false],
              { f with activateLocalizationMode := false })
    else some ([], f)
  match step1 with
  | none => none
  | some (evs1, f1) =>
    if f1.deactivateLocalizationMode then
      some (evs1 ++ [ModeEv.informOnlyTracking false, ModeEv.releaseLocalMapper],
            { f1 with deactivateLocalizationMode := false })
    else some (evs1, f1)

/-! ## Shutdown (C2) -/

/-- Worker state visible to System::Shutdown at each poll tick: whether a
viewer thread exists, and the `isFinished` / `isRunningGBA` reports of the
collaborators over time. -/
structure ShutdownEnv where
  hasViewer : Bool
  viewerFinished : Nat → Bool
  localMapperFinished : Nat → Bool
  loopCloserFinished : Nat → Bool
  runningGBA : Nat → Bool

/-- Events emitted by System::Shutdown, in program order. -/
inductive ShutdownEv
  | requestFinishLocalMapper
  | requestFinishLoopCloser
  | requestFinishViewer
  | viewerFinishedObserved
  | workersFinishedObserved
deriving DecidableEq, Repr

/-- Exit condition of Shutdown's final wait loop (System.cc lines 311-314):
both workers report finished and no global bundle adjustment is running. -/
def workersDone (env : ShutdownEnv) (t : Nat) : Bool :=
  env.localMapperFinished t && env.loopCloserFinished t && !env.runningGBA t

/-- System::Shutdown (System.cc lines 301-319), started at poll tick `t0`:
requests finish on the local mapper and the loop closer; then, if a viewer
is present, requests the viewer's finish and polls until the viewer
reports finished; then polls until both workers report finished and no
global bundle adjustment is running.  Returns the emitted events and the
tick at which the final wait exited, or none when a wait loop was not
satisfied within fuel. -/
def shutdownFrom (env : ShutdownEnv) (t0 fuel : Nat) :
    Option (List ShutdownEv × Nat) :=
  let viewerStep : Option (List ShutdownEv × Nat) :=
    if env.hasViewer then
      match pollFirst env.viewerFinished t0 fuel with
      | none => none
      | some t1 =>
        some ([ShutdownEv.requestFinishViewer, ShutdownEv.viewerFinishedObserved], t1)
    else some ([], t0)
  match viewerStep with
  | none => none
  | some (evsV, t1) =>
    match pollFirst (workersDone env) t1 fuel with
    | none => none
    | some t2 =>
      some ([ShutdownEv.requestFinishLocalMapper, ShutdownEv.requestFinishLoopCloser]
              ++ evsV ++ [ShutdownEv.workersFinishedObserved], t2)

/-- A shutdown environment in which every collaborator reports finished
from the first tick on and no global bundle adjustment ever runs, with a
viewer present. -/
def shutdownEnvEx : ShutdownEnv where
  hasViewer := true
  viewerFinished := fun _ => true
  localMapperFinished := fun _ => true
  loopCloserFinished := fun _ => true
  runningGBA := fun _ => false

/-! ## Trajectory exporters (C3) -/

/-- One per-frame trajectory record of the tracking collaborator
(`mlRelativeFramePoses` / `mlFrameTimes` / `mlbLost`): the lost flag and
an abstract payload standing for the record's pose and timestamp data. -/
structure TrajRecord where
  lost : Bool
  payload : Nat
deriving DecidableEq, Repr

/-- Output lines of System::SaveTrajectoryTUM (System.cc lines 348-379):
the loop over the record lists skips a record whose lost flag is set
(`if (*lbL) continue;`, line 354) and emits one line for every other
record. -/
def saveTrajectoryTUMLines : List TrajRecord → List Nat
  | [] => []
  | r :: rs =>
    if r.lost then saveTrajectoryTUMLines rs
    else r.payload :: saveTrajectoryTUMLines rs

/-- Output lines of System::SaveTrajectoryKITTI (System.cc lines 445-472):
the loop iterates references and timestamps only - it has no iterator
over `mlbLost` and no lost-flag test - and emits one line per record. -/
def saveTrajectoryKITTILines : List TrajRecord → List Nat
  | [] => []
  | r :: rs => r.payload :: saveTrajectoryKITTILines rs

/-! ## Map reconstruction after load (C4, C8): keyframes, map points, store -/

/-- A decoded MapPoint: identity (standing for the object), bad flag, and
the observation map from keyframe id to feature slot index, kept as an
association list. -/
structure MP where
  id : Nat
  bad : Bool
  obs : List (Nat × Nat)
deriving DecidableEq, Repr

/-- A decoded KeyFrame: identity, bad flag, and the ordered landmark
slots (`mvpMapPoints`); a slot holds the id of a landmark or is empty
(null). -/
structure KF where
  id : Nat
  bad : Bool
  slots : List (Option Nat)
deriving DecidableEq, Repr

/-- Lookup of a feature-slot index in an observation map by keyframe id
(first entry for the key wins, so consing a new entry overwrites). -/
def obsLookup : List (Nat × Nat) → Nat → Option Nat
  | [], _ => none
  | e :: rest, kfId => if e.1 == kfId then some e.2 else obsLookup rest kfId

/-- Modelled from the spec: MapPoint::AddObservation (MapPoint.cc is not
among the given sources) - "record the observation on the landmark (slot
index)": store keyframe id ↦ slot index in the observation map, shadowing
any earlier entry for that keyframe. -/
def MP.addObservation (p : MP) (kfId slot : Nat) : MP :=
  { p with obs := (kfId, slot) :: p.obs }

/-- Modelled from the spec: KeyFrame::AddMapPoint (KeyFrame.cc is not
among the given sources) - "confirm the keyframe's own slot": store the
landmark at feature slot `slot`. -/
def KF.addMapPoint (k : KF) (pid slot : Nat) : KF :=
  { k with slots := k.slots.set slot (some pid) }

/-- Lookup of a landmark in the decoded landmark pool by id (the id stands
for the object's address; slot references resolve through it). -/
def poolFind : List MP → Nat → Option MP
  | [], _ => none
  | p :: rest, pid => if p.id == pid then some p else poolFind rest pid

/-- In-place mutation of one landmark of the pool, by id. -/
def updatePool : List MP → Nat → (MP → MP) → List MP
  | [], _, _ => []
  | p :: rest, pid, f => (if p.id == pid then f p else p) :: updatePool rest pid f

/-- Observation entry of pooled landmark `pid` for keyframe `kid`: none
when the landmark is not in the pool, otherwise its observation map's
lookup result for that keyframe. -/
def obsAt (pool : List MP) (pid kid : Nat) : Option (Option Nat) :=
  (poolFind pool pid).map (fun p => obsLookup p.obs kid)

/-- Modelled from the spec: id-set insertion used for the Map Graph Store's
and the keyframe database's registration (Map.cc / KeyFrameDatabase.cc are
not among the given sources); registering an already-present entry leaves
the set unchanged. -/
def insertId (ids : List Nat) (i : Nat) : List Nat :=
  if ids.contains i then ids else ids ++ [i]

/-- Map Graph Store and keyframe-index contents during load
reconstruction: the decoded landmark pool (observation maps mutate in
place), the keyframes installed via Map::AddKeyFrame in install order, the
registered landmark ids (Map::AddMapPoint), and the keyframe-database
ids. -/
structure RecState where
  pool : List MP
  installedKFs : List KF
  mapPointIds : List Nat
  kfdbIds : List Nat
deriving DecidableEq, Repr

/-- Initial reconstruction state: the decoded landmark pool next to an
empty Map Graph Store and keyframe database. -/
def initRecState (pool : List MP) : RecState :=
  { pool := pool, installedKFs := [], mapPointIds := [], kfdbIds := [] }

/-- Slot loop of System::AddKeyFrame (System.cc lines 588-600), iterating
the snapshot `vpMaps` of the keyframe's landmark slots with its index `i`:
a null or bad landmark is skipped with a diagnostic; otherwise the
observation is recorded on the landmark, the keyframe's own slot is
confirmed, and the landmark is registered in the store. -/
def processSlots (kfId : Nat) : List (Option Nat) → Nat →
    List MP × KF × List Nat → List MP × KF × List Nat
  | [], _, acc => acc
  | none :: rest, i, acc => processSlots kfId rest (i + 1) acc
  | some pid :: rest, i, (pool, k, mpIds) =>
    match poolFind pool pid with
    | none => processSlots kfId rest (i + 1) (pool, k, mpIds)
    | some p =>
      if p.bad then processSlots kfId rest (i + 1) (pool, k, mpIds)
      else
        processSlots kfId rest (i + 1)
          (updatePool pool pid (fun q => q.addObservation kfId i),
           k.addMapPoint pid i, insertId mpIds pid)

/-- System::AddKeyFrame (System.cc lines 574-601): register the keyframe
in the map store and the keyframe database, then run the slot loop; the
stored keyframe is the same object the slot loop mutates, so the installed
entry carries the slot confirmations. -/
def addKeyFrame (st : RecState) (k : KF) : RecState :=
  let r := processSlots k.id k.slots 0 (st.pool, k, st.mapPointIds)
  { pool := r.1
    installedKFs := st.installedKFs ++ [r.2.1]
    mapPointIds := r.2.2
    kfdbIds := insertId st.kfdbIds k.id }

/-- System::LoadKeyFrames (System.cc lines 561-572): iterate the decoded
keyframe sequence in its original order, skip null and bad entries, and
install every surviving keyframe. -/
def loadKeyFrames (st : RecState) : List (Option KF) → RecState
  | [] => st
  | none :: rest => loadKeyFrames st rest
  | some k :: rest =>
    if k.bad then loadKeyFrames st rest
    else loadKeyFrames (addKeyFrame st k) rest

/-- The decoded keyframes that survive the null/bad filter of
System::LoadKeyFrames, in decode order. -/
def survivingKFs (dec : List (Option KF)) : List KF :=
  dec.reduceOption.filter (fun k => !k.bad)

/-- A small decoded landmark pool: landmarks 10 and 12 are live, landmark
11 is bad. -/
def poolEx : List MP :=
  [{ id := 10, bad := false, obs := [] },
   { id := 11, bad := true, obs := [] },
   { id := 12, bad := false, obs := [] }]

/-- A small decoded keyframe sequence: keyframe 0 survives (one live, one
empty and one bad-landmark slot), then a null entry, then a bad keyframe,
then keyframe 2 with two live-landmark slots. -/
def decEx : List (Option KF) :=
  [some { id := 0, bad := false, slots := [some 10, none, some 11] },
   none,
   some { id := 1, bad := true, slots := [some 10] },
   some { id := 2, bad := false, slots := [some 12, some 10] }]

/-- System::LoadMapPoints (System.cc lines 550-559): every decoded
landmark has its derived statistics recomputed (external collaborator
calls) and is registered in the Map Graph Store; the loop has no null or
bad filter. -/
def loadMapPoints (st : RecState) (mps : List MP) : RecState :=
  { st with mapPointIds := mps.foldl (fun ids p => insertId ids p.id) st.mapPointIds }

/-- System::LoadMap outcome (System.cc lines 494-533): an empty filename
or an unopenable file returns false and leaves the store untouched;
otherwise the decoded keyframes are installed, the decoded map points
finalized, and the call returns true.  The `file` argument is none when
the file is missing or unreadable and carries the decoded content
otherwise. -/
def loadMap (filename : String) (file : Option (List (Option KF) × List MP))
    (st : RecState) : Bool × RecState :=
  if filename.isEmpty then (false, st)
  else
    match file with
    | none => (false, st)
    | some (kfs, mps) => (true, loadMapPoints (loadKeyFrames st kfs) mps)

/-! ## LoadMap controller-thread ordering (C5) -/

/-- Controller-thread actions of System::LoadMap after a successful decode
(System.cc lines 513-532), as events. -/
inductive LoadEv
  | spawnKeyFrameLoad
  | phase1FlagObserved
  | joinKeyFrameLoad
  | spawnMapPointLoad
  | updateConnections (kfIdx : Nat)
  | joinMapPointLoad
  | returnSuccess
deriving DecidableEq, Repr

/-- Controller-thread event sequence of System::LoadMap after a
successful decode (System.cc lines 513-532): spawn the phase-1 keyframe
loader, poll the atomic `is_finished` flag until it is observed set, join
phase 1, spawn the phase-2 map-point loader, call UpdateConnections on
each of the `numKFs` decoded keyframes on the controller thread while
phase 2 runs, join phase 2, return true.  `phase1Finished` reports the
atomic flag at each poll tick; the result is none when the flag is not
observed within fuel (the source would still be spinning). -/
def loadMapControllerTrace (phase1Finished : Nat → Bool) (fuel numKFs : Nat) :
    Option (List LoadEv) :=
  match pollFirst phase1Finished 0 fuel with
  | none => none
  | some _ =>
    some ([LoadEv.spawnKeyFrameLoad, LoadEv.phase1FlagObserved,
           LoadEv.joinKeyFrameLoad, LoadEv.spawnMapPointLoad]
            ++ (List.range numKFs).map LoadEv.updateConnections
            ++ [LoadEv.joinMapPointLoad, LoadEv.returnSuccess])

/-- Event `a` occurs strictly before event `b` in trace `tr`. -/
def EvBefore (tr : List LoadEv) (a b : LoadEv) : Prop :=
  ∃ i j : Nat, i < j ∧ tr[i]? = some a ∧ tr[j]? = some b

/-! ## SaveMap (C6) -/

/-- One token of the map snapshot stream: a sequence length (the Binary
Codec encodes each collection's length as part of that collection's
representation) or one keyframe or map-point record (each record's layout
is the codec's per-type encoding, external to System.cc). -/
inductive MapFileTok
  | seqLen (n : Nat)
  | kfRecord (k : KF)
  | mpRecord (p : MP)
deriving DecidableEq, Repr

/-- Ascending-id comparison on keyframes: KeyFrame::lId, the comparator
passed to the sort in SaveMap (KeyFrame.cc is not among the sources;
modelled from the spec's "sorting keyframes ascending by id"). -/
def kfLe (a b : KF) : Prop := a.id ≤ b.id

instance : DecidableRel kfLe :=
  fun a b => inferInstanceAs (Decidable (a.id ≤ b.id))

instance : IsTotal KF kfLe :=
  ⟨fun a b => Nat.le_total a.id b.id⟩

instance : IsTrans KF kfLe :=
  ⟨fun _ _ _ hab hbc => Nat.le_trans hab hbc⟩

/-- System::SaveMap (System.cc lines 477-492): when the output file cannot
be opened the process exits (fatal) and no stream is produced; otherwise
the keyframe and map-point collections are copied from the map store, the
keyframes are sorted ascending by id, and the archive receives the whole
keyframe sequence followed by the whole map-point sequence with no
top-level header (`boost::archive::no_header`). -/
def saveMap (canOpenFile : Bool) (kfs : List KF) (mps : List MP) :
    Option (List MapFileTok) :=
  if !canOpenFile then none
  else
    let sorted := List.insertionSort kfLe kfs
    some ((MapFileTok.seqLen sorted.length :: sorted.map MapFileTok.kfRecord)
            ++ (MapFileTok.seqLen mps.length :: mps.map MapFileTok.mpRecord))

/-! ## Parent-chain walk of the trajectory exporters (C7) -/

/-- A keyframe as seen by the parent-chain walk: bad flag, parent
reference (none models a null parent pointer), and the stored
relative-to-parent transform `mTcp`, abstracted to a label; the
accumulated product of hop transforms lives in the free monoid, i.e. it
is the list of hop labels in multiplication order. -/
structure KFNode where
  bad : Bool
  parent : Option Nat
  tcp : Nat
deriving DecidableEq, Repr

/-- Keyframe lookup in the spanning-tree graph. -/
def nodeFind (g : List (Nat × KFNode)) (kid : Nat) : Option KFNode :=
  (g.find? (fun e => e.1 == kid)).map (fun e => e.2)

/-- Parent-chain walk of the trajectory exporters (System.cc lines 363-366
and 454-458): `while (pKF->isBad()) { Trw = Trw * pKF->mTcp; pKF =
pKF->GetParent(); }`.  Fuel bounds the number of loop iterations; the
source has no such bound.  Returns the accumulated hop transforms and the
first non-bad keyframe reached, or none when the walk dereferences a
missing keyframe, follows a null parent, or does not reach a non-bad
keyframe within fuel. -/
def walkParentChain (g : List (Nat × KFNode)) : Nat → Nat → Option (List Nat × Nat)
  | 0, _ => none
  | fuel + 1, kid =>
    match nodeFind g kid with
    | none => none
    | some nd =>
      if !nd.bad then some ([], kid)
      else
        match nd.parent with
        | none => none
        | some pk => (walkParentChain g fuel pk).map (fun r => (nd.tcp :: r.1, r.2))

/-- A two-keyframe spanning-tree fragment in which both keyframes are bad
and each is the other's parent: a broken parent chain (a cycle with no
non-bad ancestor). -/
def cyclicGraph : List (Nat × KFNode) :=
  [(0, { bad := true, parent := some 1, tcp := 5 }),
   (1, { bad := true, parent := some 0, tcp := 7 })]

/-! ## Matrix codec (C9) -/

/-- A continuous cv::Mat buffer: dimensions, element size in bytes,
element type tag, and the raw data bytes. -/
structure MatBuf where
  cols : Nat
  rows : Nat
  elemSize : Nat
  elemType : Nat
  data : List Nat
deriving DecidableEq, Repr

/-- Serialization save for a continuous cv::Mat (BoostArchiver.h lines
57-73): writes the column count, the row count, the element size in
bytes, the element type tag, then cols·rows·elemSize raw bytes of the
buffer. -/
def matSave (m : MatBuf) : List Nat :=
  [m.cols, m.rows, m.elemSize, m.elemType]
    ++ m.data.take (m.cols * m.rows * m.elemSize)

/-- Serialization load for cv::Mat (BoostArchiver.h lines 74-89): reads
the column count, the row count, the element size, the element type,
allocates rows×cols of that type, then reads cols·rows·elemSize raw
bytes.  Returns the decoded buffer and the remaining stream, or none on a
truncated stream. -/
def matLoad (s : List Nat) : Option (MatBuf × List Nat) :=
  match s with
  | cols :: rows :: esz :: ety :: rest =>
    let n := cols * rows * esz
    if n ≤ rest.length then
      some ({ cols := cols, rows := rows, elemSize := esz, elemType := ety,
              data := rest.take n }, rest.drop n)
    else none
  | _ => none

/-- A 3×4 matrix buffer with 4-byte elements (type tag 5, CV_32F) filled
with a known 48-byte pattern. -/
def matBufEx : MatBuf :=
  { cols := 4, rows := 3, elemSize := 4, elemType := 5, data := List.range 48 }

/-! ## MapChanged (C10) -/

/-- System::MapChanged body (System.cc lines 286-294): compares the
function-local static counter `n` with the store's current
`GetLastBigChangeIdx()`; on a strict increase it updates the static and
returns true, otherwise it returns false.  The static is passed in and
returned explicitly. -/
def mapChanged (n curn : Int) : Bool × Int :=
  if n < curn then (true, curn) else (false, n)

/-- A process holding two System instances: each instance has its own map
store (its own last-big-change index), but the static `n` inside
MapChanged is one per process, shared by both instances. -/
structure TwoSystems where
  staticN : Int
  idxA : Int
  idxB : Int
deriving DecidableEq, Repr

/-- MapChanged called through the first instance: reads that instance's
map index against the shared static. -/
def mapChangedA (p : TwoSystems) : Bool × TwoSystems :=
  let r := mapChanged p.staticN p.idxA
  (r.1, { p with staticN := r.2 })

/-- MapChanged called through the second instance: reads the other map
index against the same shared static. -/
def mapChangedB (p : TwoSystems) : Bool × TwoSystems :=
  let r := mapChanged p.staticN p.idxB
  (r.1, { p with staticN := r.2 })

/-! ## Helper lemmas -/

theorem pollFirst_spec {p : Nat → Bool} {t0 fuel t : Nat}
    (h : pollFirst p t0 fuel = some t) : p t = true ∧ t0 ≤ t := by
  induction fuel generalizing t0 with
  | zero =>
    unfold pollFirst at h
    by_cases hp : p t0 = true
    · rw [if_pos hp] at h
      injection h with h
      exact ⟨h ▸ hp, Nat.le_of_eq h⟩
    · rw [if_neg hp] at h
      cases h
  | succ fuel ih =>
    unfold pollFirst at h
    by_cases hp : p t0 = true
    · rw [if_pos hp] at h
      injection h with h
      exact ⟨h ▸ hp, Nat.le_of_eq h⟩
    · rw [if_neg hp] at h
      have hr := ih h
      exact ⟨hr.1, Nat.le_of_succ_le hr.2⟩

theorem pollFirst_self {p : Nat → Bool} {t0 : Nat} (hp : p t0 = true) (fuel : Nat) :
    pollFirst p t0 fuel = some t0 := by
  cases fuel <;> unfold pollFirst <;> rw [if_pos hp]

theorem obsLookup_addObservation_self (p : MP) (kid slot : Nat) :
    obsLookup (p.addObservation kid slot).obs kid = some slot := by
  simp [MP.addObservation, obsLookup]

theorem obsLookup_addObservation_ne (p : MP) (kid slot kid' : Nat) (h : kid' ≠ kid) :
    obsLookup (p.addObservation kid slot).obs kid' = obsLookup p.obs kid' := by
  have hb : (kid == kid') = false := beq_eq_false_iff_ne.mpr (fun hc => h hc.symm)
  simp [MP.addObservation, obsLookup, hb]

theorem addObservation_id (p : MP) (kid slot : Nat) :
    (p.addObservation kid slot).id = p.id := rfl

theorem addObservation_bad (p : MP) (kid slot : Nat) :
    (p.addObservation kid slot).bad = p.bad := rfl

theorem poolFind_updatePool (pool : List MP) (pid q : Nat) (f : MP → MP)
    (hf : ∀ p : MP, (f p).id = p.id) :
    poolFind (updatePool pool pid f) q =
      if q = pid then (poolFind pool q).map f else poolFind pool q := by
  induction pool with
  | nil =>
    by_cases h : q = pid <;> simp [updatePool, poolFind, h]
  | cons p rest ih =>
    unfold updatePool poolFind
    by_cases hp : p.id = pid <;> by_cases hpq : p.id = q
    · have hq : q = pid := hpq.symm.trans hp
      simp [hp, hpq, hq, hf p]
    · have hq : ¬ q = pid := fun hc => hpq (hp.trans hc.symm)
      have hq' : ¬ pid = q := fun hc => hq hc.symm
      simp [hp, hpq, hq, hq', hf p, ih]
    · have hq : ¬ q = pid := fun hc => hp (hpq.trans hc)
      simp [hp, hpq, hq, hf p]
    · simp [hp, hpq, hf p, ih]

theorem mem_insertId_self (ids : List Nat) (i : Nat) : i ∈ insertId ids i := by
  unfold insertId
  split
  · next h => exact List.mem_of_elem_eq_true h
  · exact List.mem_append_right ids (List.mem_singleton_self i)

theorem mem_insertId_of_mem (ids : List Nat) (i x : Nat) (h : x ∈ ids) :
    x ∈ insertId ids i := by
  unfold insertId
  split
  · exact h
  · exact List.mem_append_left [i] h

theorem eq_or_mem_of_mem_insertId (ids : List Nat) (i x : Nat)
    (h : x ∈ insertId ids i) : x = i ∨ x ∈ ids := by
  unfold insertId at h
  split at h
  · exact Or.inr h
  · rcases List.mem_append.mp h with h1 | h1
    · exact Or.inr h1
    · exact Or.inl (List.mem_singleton.mp h1)

theorem set_getElem?_same {α : Type} (l : List α) (i : Nat) (a : α)
    (h : l[i]? = some a) : l.set i a = l := by
  induction l generalizing i with
  | nil => rfl
  | cons x xs ih =>
    cases i with
    | zero =>
      rw [List.getElem?_cons_zero] at h
      injection h with h
      rw [List.set_cons_zero, h]
    | succ i =>
      rw [List.getElem?_cons_succ] at h
      rw [List.set_cons_succ, ih i h]

theorem processSlots_cons_none (kid : Nat) (rest : List (Option Nat)) (i : Nat)
    (pool : List MP) (k : KF) (mpIds : List Nat) :
    processSlots kid (none :: rest) i (pool, k, mpIds) =
      processSlots kid rest (i + 1) (pool, k, mpIds) := rfl

theorem processSlots_cons_some_none (kid pid : Nat) (rest : List (Option Nat)) (i : Nat)
    (pool : List MP) (k : KF) (mpIds : List Nat) (hfind : poolFind pool pid = none) :
    processSlots kid (some pid :: rest) i (pool, k, mpIds) =
      processSlots kid rest (i + 1) (pool, k, mpIds) := by
  simp only [processSlots]
  rw [hfind]

theorem processSlots_cons_some_bad (kid pid : Nat) (rest : List (Option Nat)) (i : Nat)
    (pool : List MP) (k : KF) (mpIds : List Nat) (p : MP)
    (hfind : poolFind pool pid = some p) (hbad : p.bad = true) :
    processSlots kid (some pid :: rest) i (pool, k, mpIds) =
      processSlots kid rest (i + 1) (pool, k, mpIds) := by
  simp only [processSlots]
  rw [hfind]
  dsimp only
  rw [if_pos hbad]

theorem processSlots_cons_some_good (kid pid : Nat) (rest : List (Option Nat)) (i : Nat)
    (pool : List MP) (k : KF) (mpIds : List Nat) (p : MP)
    (hfind : poolFind pool pid = some p) (hbad : p.bad = false) :
    processSlots kid (some pid :: rest) i (pool, k, mpIds) =
      processSlots kid rest (i + 1)
        (updatePool pool pid (fun q => q.addObservation kid i),
         k.addMapPoint pid i, insertId mpIds pid) := by
  simp only [processSlots]
  rw [hfind]
  dsimp only
  rw [if_neg (by simp [hbad])]

theorem processSlots_poolsig (kid : Nat) (slots : List (Option Nat)) :
    ∀ (i : Nat) (pool : List MP) (k : KF) (mpIds : List Nat) (q : Nat),
      (poolFind (processSlots kid slots i (pool, k, mpIds)).1 q).map (fun p => (p.id, p.bad)) =
        (poolFind pool q).map (fun p => (p.id, p.bad)) := by
  induction slots with
  | nil => intro i pool k mpIds q; rfl
  | cons s rest ih =>
    intro i pool k mpIds q
    cases s with
    | none => rw [processSlots_cons_none]; exact ih _ _ _ _ _
    | some pid =>
      cases hfind : poolFind pool pid with
      | none =>
        rw [processSlots_cons_some_none kid pid rest i pool k mpIds hfind]
        exact ih _ _ _ _ _
      | some p =>
        cases hpb : p.bad with
        | true =>
          rw [processSlots_cons_some_bad kid pid rest i pool k mpIds p hfind hpb]
          exact ih _ _ _ _ _
        | false =>
          rw [processSlots_cons_some_good kid pid rest i pool k mpIds p hfind hpb]
          rw [ih _ _ _ _ _]
          rw [poolFind_updatePool pool pid q (fun r => r.addObservation kid i) (fun _ => rfl)]
          by_cases hq : q = pid
          · rw [if_pos hq]
            cases poolFind pool q <;> rfl
          · rw [if_neg hq]

theorem processSlots_poolbad (kid : Nat) (slots : List (Option Nat))
    (i : Nat) (pool : List MP) (k : KF) (mpIds : List Nat) (q : Nat) :
    (poolFind (processSlots kid slots i (pool, k, mpIds)).1 q).map MP.bad =
      (poolFind pool q).map MP.bad := by
  have hsig := processSlots_poolsig kid slots i pool k mpIds q
  have h1 := congrArg (Option.map (fun e : Nat × Bool => e.2)) hsig
  rwa [Option.map_map, Option.map_map] at h1

theorem processSlots_obsAt_ne (kid kid' : Nat) (hk : kid' ≠ kid) (slots : List (Option Nat)) :
    ∀ (i : Nat) (pool : List MP) (k : KF) (mpIds : List Nat) (q : Nat),
      obsAt (processSlots kid slots i (pool, k, mpIds)).1 q kid' = obsAt pool q kid' := by
  induction slots with
  | nil => intro i pool k mpIds q; rfl
  | cons s rest ih =>
    intro i pool k mpIds q
    cases s with
    | none => rw [processSlots_cons_none]; exact ih _ _ _ _ _
    | some pid =>
      cases hfind : poolFind pool pid with
      | none =>
        rw [processSlots_cons_some_none kid pid rest i pool k mpIds hfind]
        exact ih _ _ _ _ _
      | some p =>
        cases hpb : p.bad with
        | true =>
          rw [processSlots_cons_some_bad kid pid rest i pool k mpIds p hfind hpb]
          exact ih _ _ _ _ _
        | false =>
          rw [processSlots_cons_some_good kid pid rest i pool k mpIds p hfind hpb]
          rw [ih _ _ _ _ _]
          unfold obsAt
          rw [poolFind_updatePool pool pid q (fun r => r.addObservation kid i) (fun _ => rfl)]
          by_cases hq : q = pid
          · rw [if_pos hq]
            cases poolFind pool q with
            | none => rfl
            | some p' =>
              show some (obsLookup (p'.addObservation kid i).obs kid') = _
              rw [obsLookup_addObservation_ne p' kid i kid' hk]
              rfl
          · rw [if_neg hq]

theorem processSlots_poolFind_notmem (kid : Nat) (slots : List (Option Nat)) :
    ∀ (i : Nat) (pool : List MP) (k : KF) (mpIds : List Nat) (q : Nat),
      q ∉ slots.reduceOption →
      poolFind (processSlots kid slots i (pool, k, mpIds)).1 q = poolFind pool q := by
  induction slots with
  | nil => intro i pool k mpIds q _; rfl
  | cons s rest ih =>
    intro i pool k mpIds q hq
    cases s with
    | none =>
      rw [processSlots_cons_none]
      exact ih _ _ _ _ _ (by simpa [List.reduceOption_cons_of_none] using hq)
    | some pid =>
      have hmem : q ≠ pid ∧ q ∉ rest.reduceOption := by
        rw [List.reduceOption_cons_of_some] at hq
        exact ⟨fun hc => hq (hc ▸ List.mem_cons_self _ _),
               fun hc => hq (List.mem_cons_of_mem _ hc)⟩
      cases hfind : poolFind pool pid with
      | none =>
        rw [processSlots_cons_some_none kid pid rest i pool k mpIds hfind]
        exact ih _ _ _ _ _ hmem.2
      | some p =>
        cases hpb : p.bad with
        | true =>
          rw [processSlots_cons_some_bad kid pid rest i pool k mpIds p hfind hpb]
          exact ih _ _ _ _ _ hmem.2
        | false =>
          rw [processSlots_cons_some_good kid pid rest i pool k mpIds p hfind hpb]
          rw [ih _ _ _ _ _ hmem.2]
          rw [poolFind_updatePool pool pid q (fun r => r.addObservation kid i) (fun _ => rfl), if_neg hmem.1]

theorem processSlots_mpIds_mono (kid : Nat) (slots : List (Option Nat)) :
    ∀ (i : Nat) (pool : List MP) (k : KF) (mpIds : List Nat) (x : Nat),
      x ∈ mpIds → x ∈ (processSlots kid slots i (pool, k, mpIds)).2.2 := by
  induction slots with
  | nil => intro i pool k mpIds x hx; exact hx
  | cons s rest ih =>
    intro i pool k mpIds x hx
    cases s with
    | none => rw [processSlots_cons_none]; exact ih _ _ _ _ _ hx
    | some pid =>
      cases hfind : poolFind pool pid with
      | none =>
        rw [processSlots_cons_some_none kid pid rest i pool k mpIds hfind]
        exact ih _ _ _ _ _ hx
      | some p =>
        cases hpb : p.bad with
        | true =>
          rw [processSlots_cons_some_bad kid pid rest i pool k mpIds p hfind hpb]
          exact ih _ _ _ _ _ hx
        | false =>
          rw [processSlots_cons_some_good kid pid rest i pool k mpIds p hfind hpb]
          exact ih _ _ _ _ _ (mem_insertId_of_mem _ _ _ hx)

theorem processSlots_mpIds_nonbad (kid : Nat) (slots : List (Option Nat)) :
    ∀ (i : Nat) (pool : List MP) (k : KF) (mpIds : List Nat) (x : Nat),
      x ∈ (processSlots kid slots i (pool, k, mpIds)).2.2 →
      x ∈ mpIds ∨ (poolFind pool x).map MP.bad = some false := by
  induction slots with
  | nil => intro i pool k mpIds x hx; exact Or.inl hx
  | cons s rest ih =>
    intro i pool k mpIds x hx
    cases s with
    | none =>
      rw [processSlots_cons_none] at hx
      exact ih _ _ _ _ _ hx
    | some pid =>
      cases hfind : poolFind pool pid with
      | none =>
        rw [processSlots_cons_some_none kid pid rest i pool k mpIds hfind] at hx
        exact ih _ _ _ _ _ hx
      | some p =>
        cases hpb : p.bad with
        | true =>
          rw [processSlots_cons_some_bad kid pid rest i pool k mpIds p hfind hpb] at hx
          exact ih _ _ _ _ _ hx
        | false =>
          rw [processSlots_cons_some_good kid pid rest i pool k mpIds p hfind hpb] at hx
          rcases ih _ _ _ _ _ hx with h1 | h1
          · rcases eq_or_mem_of_mem_insertId _ _ _ h1 with h2 | h2
            · refine Or.inr ?_
              rw [h2, hfind]
              show some p.bad = some false
              rw [hpb]
            · exact Or.inl h2
          · refine Or.inr ?_
            rw [poolFind_updatePool pool pid x (fun r => r.addObservation kid i) (fun _ => rfl)] at h1
            by_cases hqx : x = pid
            · rw [if_pos hqx] at h1
              rw [hqx, hfind] at h1 ⊢
              simpa using h1
            · rw [if_neg hqx] at h1
              exact h1

theorem processSlots_main (kid : Nat) (slots : List (Option Nat)) :
    ∀ (i : Nat) (pool : List MP) (k : KF) (mpIds : List Nat),
      slots.reduceOption.Nodup →
      ∀ (j pid : Nat), slots[j]? = some (some pid) →
        (poolFind pool pid).map MP.bad = some false →
        obsAt (processSlots kid slots i (pool, k, mpIds)).1 pid kid = some (some (i + j)) ∧
        pid ∈ (processSlots kid slots i (pool, k, mpIds)).2.2 := by
  induction slots with
  | nil =>
    intro i pool k mpIds _ j pid hj
    rw [List.getElem?_nil] at hj
    cases hj
  | cons s rest ih =>
    intro i pool k mpIds hnd j pid hj hbad
    cases j with
    | zero =>
      rw [List.getElem?_cons_zero] at hj
      injection hj with hj
      subst hj
      cases hfind : poolFind pool pid with
      | none => rw [hfind] at hbad; cases hbad
      | some p =>
        rw [hfind] at hbad
        have hpb : p.bad = false := by
          have hps : some p.bad = some false := hbad
          injection hps
        rw [processSlots_cons_some_good kid pid rest i pool k mpIds p hfind hpb]
        have hnotmem : pid ∉ rest.reduceOption := by
          rw [List.reduceOption_cons_of_some] at hnd
          exact (List.nodup_cons.mp hnd).1
        constructor
        · unfold obsAt
          rw [processSlots_poolFind_notmem kid rest _ _ _ _ pid hnotmem]
          rw [poolFind_updatePool pool pid pid (fun r => r.addObservation kid i) (fun _ => rfl), if_pos rfl, hfind]
          show some (obsLookup (p.addObservation kid i).obs kid) = _
          rw [obsLookup_addObservation_self, Nat.add_zero]
        · exact processSlots_mpIds_mono kid rest _ _ _ _ pid (mem_insertId_self _ _)
    | succ j =>
      rw [List.getElem?_cons_succ] at hj
      cases s with
      | none =>
        rw [processSlots_cons_none]
        have hnd' : rest.reduceOption.Nodup := by
          simpa [List.reduceOption_cons_of_none] using hnd
        have hrec := ih (i + 1) pool k mpIds hnd' j pid hj hbad
        rw [show i + 1 + j = i + (j + 1) by omega] at hrec
        exact hrec
      | some pid' =>
        have hnd' : rest.reduceOption.Nodup := by
          rw [List.reduceOption_cons_of_some] at hnd
          exact (List.nodup_cons.mp hnd).2
        cases hfind : poolFind pool pid' with
        | none =>
          rw [processSlots_cons_some_none kid pid' rest i pool k mpIds hfind]
          have hrec := ih (i + 1) pool k mpIds hnd' j pid hj hbad
          rw [show i + 1 + j = i + (j + 1) by omega] at hrec
          exact hrec
        | some p =>
          cases hpb : p.bad with
          | true =>
            rw [processSlots_cons_some_bad kid pid' rest i pool k mpIds p hfind hpb]
            have hrec := ih (i + 1) pool k mpIds hnd' j pid hj hbad
            rw [show i + 1 + j = i + (j + 1) by omega] at hrec
            exact hrec
          | false =>
            rw [processSlots_cons_some_good kid pid' rest i pool k mpIds p hfind hpb]
            have hbad' : (poolFind (updatePool pool pid'
                (fun q => q.addObservation kid i)) pid).map MP.bad = some false := by
              rw [poolFind_updatePool pool pid' pid (fun r => r.addObservation kid i) (fun _ => rfl)]
              by_cases hqq : pid = pid'
              · rw [if_pos hqq]
                cases hfp : poolFind pool pid with
                | none => rw [hfp] at hbad; cases hbad
                | some p0 =>
                  rw [hfp] at hbad
                  simpa using hbad
              · rw [if_neg hqq]
                exact hbad
            have hrec := ih (i + 1) (updatePool pool pid' (fun q => q.addObservation kid i))
              (k.addMapPoint pid' i) (insertId mpIds pid') hnd' j pid hj hbad'
            rw [show i + 1 + j = i + (j + 1) by omega] at hrec
            exact hrec

theorem processSlots_kf (kid : Nat) (slots : List (Option Nat)) :
    ∀ (i : Nat) (pool : List MP) (k : KF) (mpIds : List Nat),
      (∀ (j : Nat) (s : Option Nat), slots[j]? = some s → k.slots[i + j]? = some s) →
      (processSlots kid slots i (pool, k, mpIds)).2.1 = k := by
  induction slots with
  | nil => intro i pool k mpIds _; rfl
  | cons s rest ih =>
    intro i pool k mpIds hrel
    have hrel' : ∀ (j : Nat) (s' : Option Nat), rest[j]? = some s' →
        k.slots[i + 1 + j]? = some s' := by
      intro j s' hj
      have hr := hrel (j + 1) s' (by rw [List.getElem?_cons_succ]; exact hj)
      rw [show i + (j + 1) = i + 1 + j by omega] at hr
      exact hr
    cases s with
    | none => rw [processSlots_cons_none]; exact ih _ _ _ _ hrel'
    | some pid =>
      have h0 : k.slots[i]? = some (some pid) := by
        have hr := hrel 0 (some pid) (by rw [List.getElem?_cons_zero])
        rwa [Nat.add_zero] at hr
      cases hfind : poolFind pool pid with
      | none =>
        rw [processSlots_cons_some_none kid pid rest i pool k mpIds hfind]
        exact ih _ _ _ _ hrel'
      | some p =>
        cases hpb : p.bad with
        | true =>
          rw [processSlots_cons_some_bad kid pid rest i pool k mpIds p hfind hpb]
          exact ih _ _ _ _ hrel'
        | false =>
          rw [processSlots_cons_some_good kid pid rest i pool k mpIds p hfind hpb]
          have hset : k.addMapPoint pid i = k := by
            unfold KF.addMapPoint
            rw [set_getElem?_same k.slots i (some pid) h0]
          rw [hset]
          exact ih _ _ _ _ hrel'

/-! ## Claim theorems -/

/-- C1 (code bug, evaluated at the failing input): with pending-activate
set and the local mapper reporting stopped from the first poll tick, the
monocular tracking call's mode block emits the events in the order
RequestStop, stopped observed, only-tracking notification - but the
notification carries `false` (System.cc line 246), not `true`; at the
same input the stereo and RGBD blocks notify `true`.  All three clear the
pending-activate flag. -/
theorem trackMonocular_activate_informs_false :
    modeCheckMonocular (fun _ => true) 0
        { activateLocalizationMode := true, deactivateLocalizationMode := false } =
      some ([ModeEv.requestStop, ModeEv.stoppedObserved, ModeEv.informOnlyTracking false],
            { activateLocalizationMode := false, deactivateLocalizationMode := false }) ∧
    modeCheckStereo (fun _ => true) 0
        { activateLocalizationMode := true, deactivateLocalizationMode := false } =
      some ([ModeEv.requestStop, ModeEv.stoppedObserved, ModeEv.informOnlyTracking true],
            { activateLocalizationMode := false, deactivateLocalizationMode := false }) ∧
    modeCheckRGBD (fun _ => true) 0
        { activateLocalizationMode := true, deactivateLocalizationMode := false } =
      some ([ModeEv.requestStop, ModeEv.stoppedObserved, ModeEv.informOnlyTracking true],
            { activateLocalizationMode := false, deactivateLocalizationMode := false }) :=
  ⟨rfl, rfl, rfl⟩

/-- C2 counterexample: with a viewer present and every worker reporting
finished from tick 0, Shutdown emits the viewer finish request (index 2)
and the viewer finished observation (index 3) strictly before the
workers-finished observation (index 4) - the viewer is requested and
waited for before, not after, the wait on the mapping and loop-closing
workers. -/
theorem shutdown_viewer_wait_precedes_worker_wait :
    shutdownFrom shutdownEnvEx 0 0 =
      some ([ShutdownEv.requestFinishLocalMapper, ShutdownEv.requestFinishLoopCloser,
             ShutdownEv.requestFinishViewer, ShutdownEv.viewerFinishedObserved,
             ShutdownEv.workersFinishedObserved], 0) ∧
    [ShutdownEv.requestFinishLocalMapper, ShutdownEv.requestFinishLoopCloser,
     ShutdownEv.requestFinishViewer, ShutdownEv.viewerFinishedObserved,
     ShutdownEv.workersFinishedObserved][2]? = some ShutdownEv.requestFinishViewer ∧
    [ShutdownEv.requestFinishLocalMapper, ShutdownEv.requestFinishLoopCloser,
     ShutdownEv.requestFinishViewer, ShutdownEv.viewerFinishedObserved,
     ShutdownEv.workersFinishedObserved][4]? = some ShutdownEv.workersFinishedObserved :=
  ⟨rfl, rfl, rfl⟩

/-- C2 amended: when Shutdown returns, both workers report finished and no
global bundle adjustment is running; the emitted event sequence requests
finish on both workers, then (when a viewer is present) requests and
observes the viewer's finish, and only afterwards observes the workers
finished; and a second Shutdown started at the tick where the first one
completed also returns (given that the viewer's finished report is
stable), with the same events. -/
theorem shutdownFrom_spec (env : ShutdownEnv) (t0 fuel : Nat) (tr : List ShutdownEv) (t : Nat)
    (hV : ∀ s u : Nat, s ≤ u → env.viewerFinished s = true → env.viewerFinished u = true)
    (h : shutdownFrom env t0 fuel = some (tr, t)) :
    (env.localMapperFinished t = true ∧ env.loopCloserFinished t = true ∧
       env.runningGBA t = false) ∧
    tr = [ShutdownEv.requestFinishLocalMapper, ShutdownEv.requestFinishLoopCloser]
           ++ (if env.hasViewer then
                 [ShutdownEv.requestFinishViewer, ShutdownEv.viewerFinishedObserved]
               else []) ++ [ShutdownEv.workersFinishedObserved] ∧
    shutdownFrom env t fuel = some (tr, t) := by
  by_cases hv : env.hasViewer = true
  · unfold shutdownFrom at h
    rw [if_pos hv] at h
    cases h1 : pollFirst env.viewerFinished t0 fuel with
    | none => rw [h1] at h; cases h
    | some t1 =>
      rw [h1] at h
      dsimp only at h
      cases h2 : pollFirst (workersDone env) t1 fuel with
      | none => rw [h2] at h; cases h
      | some t2 =>
        rw [h2] at h
        dsimp only at h
        injection h with h
        injection h with htr ht
        subst ht
        subst htr
        have hw := pollFirst_spec h2
        have hviewer := pollFirst_spec h1
        have hdone : workersDone env t2 = true := hw.1
        unfold workersDone at hdone
        simp only [Bool.and_eq_true, Bool.not_eq_true'] at hdone
        have hvt : env.viewerFinished t2 = true := hV t1 t2 hw.2 hviewer.1
        refine ⟨⟨hdone.1.1, hdone.1.2, hdone.2⟩, ?_, ?_⟩
        · rw [if_pos hv]
        · unfold shutdownFrom
          rw [if_pos hv, pollFirst_self hvt fuel]
          dsimp only
          rw [pollFirst_self hw.1 fuel]
  · unfold shutdownFrom at h
    rw [if_neg hv] at h
    dsimp only at h
    cases h2 : pollFirst (workersDone env) t0 fuel with
    | none => rw [h2] at h; cases h
    | some t2 =>
      rw [h2] at h
      dsimp only at h
      injection h with h
      injection h with htr ht
      subst ht
      subst htr
      have hw := pollFirst_spec h2
      have hdone : workersDone env t2 = true := hw.1
      unfold workersDone at hdone
      simp only [Bool.and_eq_true, Bool.not_eq_true'] at hdone
      refine ⟨⟨hdone.1.1, hdone.1.2, hdone.2⟩, ?_, ?_⟩
      · rw [if_neg hv]
      · unfold shutdownFrom
        rw [if_neg hv]
        dsimp only
        rw [pollFirst_self hw.1 fuel]

/-- C2 witness: the amended shutdown theorem applied to the concrete
environment in which every collaborator is finished from tick 0. -/
theorem shutdownFrom_spec_witness :
    ((shutdownEnvEx.localMapperFinished 0 = true ∧
        shutdownEnvEx.loopCloserFinished 0 = true ∧
        shutdownEnvEx.runningGBA 0 = false) ∧
      [ShutdownEv.requestFinishLocalMapper, ShutdownEv.requestFinishLoopCloser,
       ShutdownEv.requestFinishViewer, ShutdownEv.viewerFinishedObserved,
       ShutdownEv.workersFinishedObserved] =
        [ShutdownEv.requestFinishLocalMapper, ShutdownEv.requestFinishLoopCloser]
          ++ (if shutdownEnvEx.hasViewer then
                [ShutdownEv.requestFinishViewer, ShutdownEv.viewerFinishedObserved]
              else []) ++ [ShutdownEv.workersFinishedObserved] ∧
      shutdownFrom shutdownEnvEx 0 3 =
        some ([ShutdownEv.requestFinishLocalMapper, ShutdownEv.requestFinishLoopCloser,
               ShutdownEv.requestFinishViewer, ShutdownEv.viewerFinishedObserved,
               ShutdownEv.workersFinishedObserved], 0)) :=
  shutdownFrom_spec shutdownEnvEx 0 3
    [ShutdownEv.requestFinishLocalMapper, ShutdownEv.requestFinishLoopCloser,
     ShutdownEv.requestFinishViewer, ShutdownEv.viewerFinishedObserved,
     ShutdownEv.workersFinishedObserved] 0
    (fun _ _ _ hs => hs) rfl

/-- C3 counterexample: on the record sequence [valid, lost, valid] the TUM
exporter emits 2 lines but the KITTI exporter emits 3 - its loop has no
lost-flag test - refuting the claim that each exporter yields exactly 2
lines there. -/
theorem saveTrajectoryKITTI_emits_lost_records :
    saveTrajectoryTUMLines
        [{ lost := false, payload := 0 }, { lost := true, payload := 1 },
         { lost := false, payload := 2 }] = [0, 2] ∧
    saveTrajectoryKITTILines
        [{ lost := false, payload := 0 }, { lost := true, payload := 1 },
         { lost := false, payload := 2 }] = [0, 1, 2] ∧
    (saveTrajectoryKITTILines
        [{ lost := false, payload := 0 }, { lost := true, payload := 1 },
         { lost := false, payload := 2 }]).length ≠ 2 :=
  ⟨rfl, rfl, by decide⟩

/-- C3 amended: SaveTrajectoryTUM emits exactly one output line per
non-lost record and nothing for a lost record; SaveTrajectoryKITTI emits
exactly one output line per record whether or not it is lost. -/
theorem trajectory_export_line_counts (recs : List TrajRecord) :
    (saveTrajectoryTUMLines recs).length = (recs.filter (fun r => !r.lost)).length ∧
    (saveTrajectoryKITTILines recs).length = recs.length := by
  induction recs with
  | nil => exact ⟨rfl, rfl⟩
  | cons r rs ih =>
    constructor
    · by_cases h : r.lost = true <;>
        simp [saveTrajectoryTUMLines, List.filter_cons, h, ih.1]
    · simp [saveTrajectoryKITTILines, ih.2]

theorem loadKeyFrames_go (dec : List (Option KF)) :
    ∀ st : RecState,
      ((st.installedKFs ++ survivingKFs dec).map KF.id).Nodup →
      (∀ k ∈ survivingKFs dec, k.slots.reduceOption.Nodup) →
      (∀ k ∈ st.installedKFs, ∀ (j pid : Nat), k.slots[j]? = some (some pid) →
         (poolFind st.pool pid).map MP.bad = some false →
         obsAt st.pool pid k.id = some (some j) ∧ pid ∈ st.mapPointIds) →
      (∀ k ∈ st.installedKFs, k.id ∈ st.kfdbIds) →
      (∀ x ∈ st.mapPointIds, (poolFind st.pool x).map MP.bad = some false) →
      (loadKeyFrames st dec).installedKFs = st.installedKFs ++ survivingKFs dec ∧
      (∀ k ∈ (loadKeyFrames st dec).installedKFs, ∀ (j pid : Nat),
         k.slots[j]? = some (some pid) →
         (poolFind (loadKeyFrames st dec).pool pid).map MP.bad = some false →
         obsAt (loadKeyFrames st dec).pool pid k.id = some (some j) ∧
         pid ∈ (loadKeyFrames st dec).mapPointIds) ∧
      (∀ k ∈ (loadKeyFrames st dec).installedKFs, k.id ∈ (loadKeyFrames st dec).kfdbIds) ∧
      (∀ x ∈ (loadKeyFrames st dec).mapPointIds,
         (poolFind (loadKeyFrames st dec).pool x).map MP.bad = some false) := by
  induction dec with
  | nil =>
    intro st hids hslots hmain hkfdb hmp
    refine ⟨?_, hmain, hkfdb, hmp⟩
    show st.installedKFs = st.installedKFs ++ survivingKFs []
    simp [survivingKFs]
  | cons o rest ih =>
    intro st hids hslots hmain hkfdb hmp
    cases o with
    | none =>
      have hsurv : survivingKFs (none :: rest) = survivingKFs rest := by
        simp [survivingKFs, List.reduceOption_cons_of_none]
      rw [hsurv] at hids hslots
      have hres := ih st hids hslots hmain hkfdb hmp
      rw [hsurv]
      exact hres
    | some k =>
      by_cases hkbad : k.bad = true
      · have hsurv : survivingKFs (some k :: rest) = survivingKFs rest := by
          simp [survivingKFs, List.reduceOption_cons_of_some, List.filter_cons, hkbad]
        have hstep : loadKeyFrames st (some k :: rest) = loadKeyFrames st rest := by
          simp only [loadKeyFrames]
          rw [if_pos hkbad]
        rw [hsurv] at hids hslots
        have hres := ih st hids hslots hmain hkfdb hmp
        rw [hstep, hsurv]
        exact hres
      · have hkbad' : k.bad = false := by
          cases hb : k.bad
          · rfl
          · exact absurd hb hkbad
        have hsurv : survivingKFs (some k :: rest) = k :: survivingKFs rest := by
          simp [survivingKFs, List.reduceOption_cons_of_some, List.filter_cons, hkbad']
        have hstep : loadKeyFrames st (some k :: rest) =
            loadKeyFrames (addKeyFrame st k) rest := by
          simp only [loadKeyFrames]
          rw [if_neg (by simp [hkbad'])]
        rw [hsurv] at hids hslots
        rw [hstep, hsurv]
        have hkf : (processSlots k.id k.slots 0 (st.pool, k, st.mapPointIds)).2.1 = k :=
          processSlots_kf k.id k.slots 0 st.pool k st.mapPointIds
            (fun j s hj => by rw [Nat.zero_add]; exact hj)
        have hinst : (addKeyFrame st k).installedKFs = st.installedKFs ++ [k] := by
          show st.installedKFs
              ++ [(processSlots k.id k.slots 0 (st.pool, k, st.mapPointIds)).2.1] = _
          rw [hkf]
        have hids' := hids
        rw [List.map_append] at hids'
        have hparts := List.nodup_append.mp hids'
        have hfresh : k.id ∉ st.installedKFs.map KF.id := fun hmem =>
          (hparts.2.2 hmem) (by rw [List.map_cons]; exact List.mem_cons_self _ _)
        have hids1 : (((addKeyFrame st k).installedKFs ++ survivingKFs rest).map KF.id).Nodup := by
          rw [hinst, List.append_assoc]
          exact hids
        have hslots1 : ∀ k' ∈ survivingKFs rest, k'.slots.reduceOption.Nodup :=
          fun k' hk' => hslots k' (List.mem_cons_of_mem _ hk')
        have hbadpres : ∀ pid : Nat,
            (poolFind (addKeyFrame st k).pool pid).map MP.bad =
              (poolFind st.pool pid).map MP.bad :=
          fun pid => processSlots_poolbad k.id k.slots 0 st.pool k st.mapPointIds pid
        have hmain1 : ∀ k' ∈ (addKeyFrame st k).installedKFs, ∀ (j pid : Nat),
            k'.slots[j]? = some (some pid) →
            (poolFind (addKeyFrame st k).pool pid).map MP.bad = some false →
            obsAt (addKeyFrame st k).pool pid k'.id = some (some j) ∧
            pid ∈ (addKeyFrame st k).mapPointIds := by
          intro k' hk' j pid hslot hbad1
          have hbad0 : (poolFind st.pool pid).map MP.bad = some false := by
            rw [← hbadpres pid]
            exact hbad1
          rw [hinst] at hk'
          rcases List.mem_append.mp hk' with hold | hnew
          · have hres0 := hmain k' hold j pid hslot hbad0
            constructor
            · have hne : k'.id ≠ k.id := fun hc =>
                hfresh (hc ▸ List.mem_map_of_mem KF.id hold)
              have hpres := processSlots_obsAt_ne k.id k'.id hne k.slots
                0 st.pool k st.mapPointIds pid
              show obsAt (processSlots k.id k.slots 0 (st.pool, k, st.mapPointIds)).1
                  pid k'.id = some (some j)
              rw [hpres]
              exact hres0.1
            · exact processSlots_mpIds_mono k.id k.slots 0 st.pool k st.mapPointIds
                pid hres0.2
          · have hk'eq : k' = k := by simpa using hnew
            subst hk'eq
            have hndslots : k'.slots.reduceOption.Nodup :=
              hslots k' (List.mem_cons_self _ _)
            have hres0 := processSlots_main k'.id k'.slots 0 st.pool k' st.mapPointIds
              hndslots j pid hslot hbad0
            rw [Nat.zero_add] at hres0
            exact hres0
        have hkfdb1 : ∀ k' ∈ (addKeyFrame st k).installedKFs,
            k'.id ∈ (addKeyFrame st k).kfdbIds := by
          intro k' hk'
          rw [hinst] at hk'
          rcases List.mem_append.mp hk' with hold | hnew
          · exact mem_insertId_of_mem _ _ _ (hkfdb k' hold)
          · have hk'eq : k' = k := by simpa using hnew
            subst hk'eq
            exact mem_insertId_self _ _
        have hmp1 : ∀ x ∈ (addKeyFrame st k).mapPointIds,
            (poolFind (addKeyFrame st k).pool x).map MP.bad = some false := by
          intro x hx
          rcases processSlots_mpIds_nonbad k.id k.slots 0 st.pool k st.mapPointIds
              x hx with h1 | h1
          · rw [hbadpres x]
            exact hmp x h1
          · rw [hbadpres x]
            exact h1
        have hres := ih (addKeyFrame st k) hids1 hslots1 hmain1 hkfdb1 hmp1
        refine ⟨?_, hres.2.1, hres.2.2.1, hres.2.2.2⟩
        rw [hres.1, hinst, List.append_assoc]
        rfl

/-- C4: after the phase-1 keyframe install, the installed keyframe list is
exactly the decoded sequence with null and bad entries dropped (so null
and bad keyframes are never installed, and each installed keyframe keeps
its original slots); for every installed keyframe k and every occupied
slot j holding a landmark that is present in the pool and not bad, that
landmark's observation map sends k's id to j, the landmark is registered
in the map store, and k is registered in the keyframe database; and every
landmark registered by the install is a non-bad pool landmark. -/
theorem loadKeyFrames_consistency (dec : List (Option KF)) (pool0 : List MP)
    (hids : ((survivingKFs dec).map KF.id).Nodup)
    (hslots : ∀ k ∈ survivingKFs dec, k.slots.reduceOption.Nodup) :
    (loadKeyFrames (initRecState pool0) dec).installedKFs = survivingKFs dec ∧
    (∀ k ∈ survivingKFs dec, ∀ (j pid : Nat), k.slots[j]? = some (some pid) →
       (poolFind (loadKeyFrames (initRecState pool0) dec).pool pid).map MP.bad = some false →
       obsAt (loadKeyFrames (initRecState pool0) dec).pool pid k.id = some (some j) ∧
       pid ∈ (loadKeyFrames (initRecState pool0) dec).mapPointIds ∧
       k.id ∈ (loadKeyFrames (initRecState pool0) dec).kfdbIds) ∧
    (∀ x ∈ (loadKeyFrames (initRecState pool0) dec).mapPointIds,
       (poolFind (loadKeyFrames (initRecState pool0) dec).pool x).map MP.bad = some false) := by
  have hgo := loadKeyFrames_go dec (initRecState pool0)
    (by simpa [initRecState] using hids) hslots
    (by intro k hk; simp [initRecState] at hk)
    (by intro k hk; simp [initRecState] at hk)
    (by intro x hx; simp [initRecState] at hx)
  obtain ⟨h1, h2, h3, h4⟩ := hgo
  have h1' : (loadKeyFrames (initRecState pool0) dec).installedKFs = survivingKFs dec := by
    simpa [initRecState] using h1
  refine ⟨h1', ?_, h4⟩
  intro k hk j pid hslot hbad
  have hkmem : k ∈ (loadKeyFrames (initRecState pool0) dec).installedKFs := by
    rw [h1']
    exact hk
  rcases h2 k hkmem j pid hslot hbad with ⟨ho, hm⟩
  exact ⟨ho, hm, h3 k hkmem⟩

/-- C4 witness: the consistency theorem applied to the concrete decoded
batch decEx over the landmark pool poolEx. -/
theorem loadKeyFrames_consistency_witness :
    (loadKeyFrames (initRecState poolEx) decEx).installedKFs = survivingKFs decEx ∧
    (∀ k ∈ survivingKFs decEx, ∀ (j pid : Nat), k.slots[j]? = some (some pid) →
       (poolFind (loadKeyFrames (initRecState poolEx) decEx).pool pid).map MP.bad = some false →
       obsAt (loadKeyFrames (initRecState poolEx) decEx).pool pid k.id = some (some j) ∧
       pid ∈ (loadKeyFrames (initRecState poolEx) decEx).mapPointIds ∧
       k.id ∈ (loadKeyFrames (initRecState poolEx) decEx).kfdbIds) ∧
    (∀ x ∈ (loadKeyFrames (initRecState poolEx) decEx).mapPointIds,
       (poolFind (loadKeyFrames (initRecState poolEx) decEx).pool x).map MP.bad = some false) :=
  loadKeyFrames_consistency decEx poolEx (by decide) (by decide)

/-- C5: in the controller-thread event order of LoadMap, the phase-1
completion flag is observed before the phase-1 task is joined, which is
before the phase-2 task is spawned; every per-keyframe UpdateConnections
call on the controller thread happens after the phase-2 spawn and before
the phase-2 join (it overlaps phase 2); and phase 2 is joined before the
call returns true. -/
theorem loadMap_phase_ordering (p1 : Nat → Bool) (fuel numKFs : Nat) (tr : List LoadEv)
    (h : loadMapControllerTrace p1 fuel numKFs = some tr) :
    EvBefore tr LoadEv.phase1FlagObserved LoadEv.joinKeyFrameLoad ∧
    EvBefore tr LoadEv.joinKeyFrameLoad LoadEv.spawnMapPointLoad ∧
    (∀ k, k < numKFs →
      EvBefore tr LoadEv.spawnMapPointLoad (LoadEv.updateConnections k) ∧
      EvBefore tr (LoadEv.updateConnections k) LoadEv.joinMapPointLoad) ∧
    EvBefore tr LoadEv.joinMapPointLoad LoadEv.returnSuccess := by
  unfold loadMapControllerTrace at h
  cases hp : pollFirst p1 0 fuel with
  | none => rw [hp] at h; cases h
  | some t =>
    rw [hp] at h
    injection h with h
    subst h
    have hlen4 : ([LoadEv.spawnKeyFrameLoad, LoadEv.phase1FlagObserved,
        LoadEv.joinKeyFrameLoad, LoadEv.spawnMapPointLoad] : List LoadEv).length = 4 := rfl
    have hmidlen : ((List.range numKFs).map LoadEv.updateConnections).length = numKFs := by
      simp
    have hAB : (([LoadEv.spawnKeyFrameLoad, LoadEv.phase1FlagObserved, LoadEv.joinKeyFrameLoad,
        LoadEv.spawnMapPointLoad] : List LoadEv)
          ++ (List.range numKFs).map LoadEv.updateConnections).length = 4 + numKFs := by
      rw [List.length_append, hlen4, hmidlen]
    have hsmall : ∀ i : Nat, i < 4 →
        ((([LoadEv.spawnKeyFrameLoad, LoadEv.phase1FlagObserved, LoadEv.joinKeyFrameLoad,
            LoadEv.spawnMapPointLoad] : List LoadEv)
             ++ (List.range numKFs).map LoadEv.updateConnections)
           ++ [LoadEv.joinMapPointLoad, LoadEv.returnSuccess])[i]? =
          ([LoadEv.spawnKeyFrameLoad, LoadEv.phase1FlagObserved, LoadEv.joinKeyFrameLoad,
            LoadEv.spawnMapPointLoad] : List LoadEv)[i]? := by
      intro i hi
      rw [List.getElem?_append_left (by rw [hAB]; omega)]
      rw [List.getElem?_append_left (by rw [hlen4]; omega)]
    have hupd : ∀ k, k < numKFs →
        ((([LoadEv.spawnKeyFrameLoad, LoadEv.phase1FlagObserved, LoadEv.joinKeyFrameLoad,
            LoadEv.spawnMapPointLoad] : List LoadEv)
             ++ (List.range numKFs).map LoadEv.updateConnections)
           ++ [LoadEv.joinMapPointLoad, LoadEv.returnSuccess])[k + 4]? =
          some (LoadEv.updateConnections k) := by
      intro k hk
      rw [List.getElem?_append_left (by rw [hAB]; omega)]
      rw [List.getElem?_append_right (by rw [hlen4]; omega)]
      rw [hlen4]
      have hsub : k + 4 - 4 = k := by omega
      rw [hsub]
      simp [List.getElem?_map, List.getElem?_range, hk]
    have hjoin2 :
        ((([LoadEv.spawnKeyFrameLoad, LoadEv.phase1FlagObserved, LoadEv.joinKeyFrameLoad,
            LoadEv.spawnMapPointLoad] : List LoadEv)
             ++ (List.range numKFs).map LoadEv.updateConnections)
           ++ [LoadEv.joinMapPointLoad, LoadEv.returnSuccess])[numKFs + 4]? =
          some LoadEv.joinMapPointLoad := by
      rw [List.getElem?_append_right (by rw [hAB]; omega)]
      rw [hAB]
      have hsub : numKFs + 4 - (4 + numKFs) = 0 := by omega
      rw [hsub]
      rfl
    have hret :
        ((([LoadEv.spawnKeyFrameLoad, LoadEv.phase1FlagObserved, LoadEv.joinKeyFrameLoad,
            LoadEv.spawnMapPointLoad] : List LoadEv)
             ++ (List.range numKFs).map LoadEv.updateConnections)
           ++ [LoadEv.joinMapPointLoad, LoadEv.returnSuccess])[numKFs + 5]? =
          some LoadEv.returnSuccess := by
      rw [List.getElem?_append_right (by rw [hAB]; omega)]
      rw [hAB]
      have hsub : numKFs + 5 - (4 + numKFs) = 1 := by omega
      rw [hsub]
      rfl
    refine ⟨⟨1, 2, by omega, hsmall 1 (by omega), hsmall 2 (by omega)⟩,
            ⟨2, 3, by omega, hsmall 2 (by omega), hsmall 3 (by omega)⟩, ?_, ?_⟩
    · intro k hk
      exact ⟨⟨3, k + 4, by omega, hsmall 3 (by omega), hupd k hk⟩,
             ⟨k + 4, numKFs + 4, by omega, hupd k hk, hjoin2⟩⟩
    · exact ⟨numKFs + 4, numKFs + 5, by omega, hjoin2, hret⟩

/-- C5 witness: the ordering theorem applied to one decoded keyframe and a
phase-1 flag that is set from the first poll tick on. -/
theorem loadMap_phase_ordering_witness :
    EvBefore [LoadEv.spawnKeyFrameLoad, LoadEv.phase1FlagObserved, LoadEv.joinKeyFrameLoad,
        LoadEv.spawnMapPointLoad, LoadEv.updateConnections 0, LoadEv.joinMapPointLoad,
        LoadEv.returnSuccess] LoadEv.phase1FlagObserved LoadEv.joinKeyFrameLoad ∧
    EvBefore [LoadEv.spawnKeyFrameLoad, LoadEv.phase1FlagObserved, LoadEv.joinKeyFrameLoad,
        LoadEv.spawnMapPointLoad, LoadEv.updateConnections 0, LoadEv.joinMapPointLoad,
        LoadEv.returnSuccess] LoadEv.joinKeyFrameLoad LoadEv.spawnMapPointLoad ∧
    (∀ k, k < 1 →
      EvBefore [LoadEv.spawnKeyFrameLoad, LoadEv.phase1FlagObserved, LoadEv.joinKeyFrameLoad,
          LoadEv.spawnMapPointLoad, LoadEv.updateConnections 0, LoadEv.joinMapPointLoad,
          LoadEv.returnSuccess] LoadEv.spawnMapPointLoad (LoadEv.updateConnections k) ∧
      EvBefore [LoadEv.spawnKeyFrameLoad, LoadEv.phase1FlagObserved, LoadEv.joinKeyFrameLoad,
          LoadEv.spawnMapPointLoad, LoadEv.updateConnections 0, LoadEv.joinMapPointLoad,
          LoadEv.returnSuccess] (LoadEv.updateConnections k) LoadEv.joinMapPointLoad) ∧
    EvBefore [LoadEv.spawnKeyFrameLoad, LoadEv.phase1FlagObserved, LoadEv.joinKeyFrameLoad,
        LoadEv.spawnMapPointLoad, LoadEv.updateConnections 0, LoadEv.joinMapPointLoad,
        LoadEv.returnSuccess] LoadEv.joinMapPointLoad LoadEv.returnSuccess :=
  loadMap_phase_ordering (fun _ => true) 0 1
    [LoadEv.spawnKeyFrameLoad, LoadEv.phase1FlagObserved, LoadEv.joinKeyFrameLoad,
     LoadEv.spawnMapPointLoad, LoadEv.updateConnections 0, LoadEv.joinMapPointLoad,
     LoadEv.returnSuccess] rfl

/-- C6: SaveMap on an unopenable file is fatal and produces no stream; on
an openable file it emits, back-to-back with no top-level header, the
keyframe sequence (its length, then its records sorted ascending by id, a
permutation of the store's keyframe collection) followed by the map-point
sequence (its length, then its records in store iteration order). -/
theorem saveMap_spec (kfs : List KF) (mps : List MP) :
    saveMap false kfs mps = none ∧
    ∃ kfs' : List KF,
      saveMap true kfs mps =
        some ((MapFileTok.seqLen kfs'.length :: kfs'.map MapFileTok.kfRecord)
                ++ (MapFileTok.seqLen mps.length :: mps.map MapFileTok.mpRecord)) ∧
      List.Sorted kfLe kfs' ∧ List.Perm kfs' kfs :=
  ⟨rfl, List.insertionSort kfLe kfs, rfl, List.sorted_insertionSort kfLe kfs,
   List.perm_insertionSort kfLe kfs⟩

/-- C7 (code bug, evaluated at the failing input): on the two-keyframe
cycle of bad keyframes, the parent-chain walk never reaches a non-bad
keyframe whatever iteration bound it is given - the source loop, which
has no bound, spins forever on this input, and nothing is detected or
reported. -/
theorem walkParentChain_cycle_never_terminates (fuel : Nat) :
    walkParentChain cyclicGraph fuel 0 = none ∧
    walkParentChain cyclicGraph fuel 1 = none := by
  induction fuel with
  | zero => exact ⟨rfl, rfl⟩
  | succ fuel ih =>
    constructor
    · show (walkParentChain cyclicGraph fuel 1).map
          (fun r => ((5 : Nat) :: r.1, r.2)) = none
      rw [ih.2]
      rfl
    · show (walkParentChain cyclicGraph fuel 0).map
          (fun r => ((7 : Nat) :: r.1, r.2)) = none
      rw [ih.1]
      rfl

/-- C8: LoadMap called with an empty configured filename, and LoadMap on a
missing or unreadable file, both return false and leave the map store
exactly as it was; the caller proceeds with its current (empty) map. -/
theorem loadMap_missing_file (filename : String) (st : RecState)
    (file : Option (List (Option KF) × List MP)) :
    loadMap filename none st = (false, st) ∧ loadMap "" file st = (false, st) := by
  constructor
  · unfold loadMap
    split
    · rfl
    · rfl
  · rfl

/-- C9: the matrix codec round-trips any continuous buffer byte-exactly -
encoding writes the column count, the row count, the element size, the
element type tag, then cols·rows·elemSize raw data bytes, and decoding
restores the identical buffer, consuming exactly the encoded tokens. -/
theorem matCodec_roundTrip (m : MatBuf) (rest : List Nat)
    (h : m.data.length = m.cols * m.rows * m.elemSize) :
    matLoad (matSave m ++ rest) = some (m, rest) := by
  rcases m with ⟨cols, rows, esz, ety, data⟩
  simp only at h
  show matLoad (([cols, rows, esz, ety] ++ data.take (cols * rows * esz)) ++ rest) = _
  rw [← h, List.take_length]
  show matLoad (cols :: rows :: esz :: ety :: (data ++ rest)) = _
  unfold matLoad
  dsimp only
  rw [← h]
  simp only [List.length_append]
  rw [if_pos (Nat.le_add_right _ _), List.take_left, List.drop_left]

/-- C9 witness: the 3×4 buffer with 4-byte elements and a known 48-byte
pattern survives encode then decode byte-exact. -/
theorem matCodec_roundTrip_witness :
    matLoad (matSave matBufEx ++ []) = some (matBufEx, []) :=
  matCodec_roundTrip matBufEx [] (by decide)

/-- C10: MapChanged returns true exactly when the store's last-big-change
index strictly exceeds the remembered counter, and the remembered counter
is one per process: with two instances whose map indices both sit at 5
and the shared static at 0, the call through the first instance returns
true and consumes the increase, after which the call through the second
instance returns false even though its own map's index also exceeds the
static's initial value. -/
theorem mapChanged_spec :
    (∀ n curn : Int, (mapChanged n curn).1 = true ↔ n < curn) ∧
    (mapChangedA { staticN := 0, idxA := 5, idxB := 5 }).1 = true ∧
    (mapChangedB (mapChangedA { staticN := 0, idxA := 5, idxB := 5 }).2).1 = false := by
  refine ⟨fun n curn => ?_, by decide, by decide⟩
  unfold mapChanged
  split <;> simp_all

end VSLAM
